import Mathlib

/-!
Shallow embedding of `packages/frontend-plugin-api/src/wiring/createExtensionBlueprint.ts`.

The module under verification builds, from a static blueprint declaration, an object
exposing two operations (`make` and `makeWithOverrides`), each of which assembles a
declaration record and hands it to the external extension constructor `createExtension`.

Modelling choices:
- JavaScript objects used as string-keyed records (input slots, config schemas,
  resolved inputs) are embedded as lookup functions `String → Option α` (`Obj`);
  JS object spread is embedded by its lookup semantics, with the later operand
  taking precedence on key collisions.
- A JavaScript value that may be `undefined` is embedded as `Option _`; the
  nullish-coalescing operator `??` becomes `nullish` / `nullishD`.
- Factory functions may throw, so they return `Except Err _`; the eager, finite
  iterable of output values a factory yields is a `List`.
- The factory parameter of type `TParams` is embedded as `Option Param`: the type
  layer always supplies it, but the bound original-factory callable can be invoked
  without arguments through a type-erased call, in which case the JS function
  receives `undefined` (`none`).
- `createExtension` is external to the sources (the spec treats it as a black box
  returning an opaque Extension Definition); the embedding models it as capturing
  the declaration passed to it, which is exactly what the claims quantify over.
-/

/-- A JavaScript object viewed as a string-keyed record, embedded by its lookup
function: `o k` is `some v` when the object has key `k` with value `v`, and
`none` when the key is absent (or the whole object stands for `undefined`). -/
def Obj (α : Type) : Type := String → Option α

/-- Key lookup on an embedded JavaScript object. -/
def Obj.get {α : Type} (o : Obj α) (k : String) : Option α := o k

/-- JS object spread of `a` then `b` (later operand wins on key collisions),
embedded by its lookup semantics. -/
def Obj.spread {α : Type} (a b : Obj α) : Obj α := fun k =>
  match b k with
  | some v => some v
  | none => a k

/-- Spreading a possibly-`undefined` object: `undefined` contributes no keys. -/
def Obj.orEmpty {α : Type} (o : Option (Obj α)) : Obj α :=
  match o with
  | some m => m
  | none => fun _ => none

/-- An embedded object built from an association list, for concrete instances. -/
def Obj.ofList {α : Type} (l : List (String × α)) : Obj α := fun k =>
  (l.find? (fun p => p.1 == k)).map (fun p => p.2)

/-- JS nullish coalescing `a ?? b` between two possibly-`undefined` values. -/
def nullish {α : Type} (a b : Option α) : Option α :=
  match a with
  | some v => some v
  | none => b

/-- JS nullish coalescing `a ?? b` where the right operand is always defined. -/
def nullishD {α : Type} (a : Option α) (b : α) : α :=
  match a with
  | some v => v
  | none => b

/-- The attachment target of an extension: `attachTo: (id, input)`. -/
structure AttachTo where
  id : String
  input : String
deriving DecidableEq

/-- The runtime context handed to an extension factory: the app node, the API
holder, the resolved configuration and the resolved inputs. -/
structure FactoryContext (Node Apis Cfg RVal : Type) where
  node : Node
  apis : Apis
  config : Cfg
  inputs : Obj RVal

/-- The optional second argument of the bound original-factory callable:
per-call config and input overrides, each possibly `undefined`. -/
structure InnerContext (Cfg RVal : Type) where
  config : Option Cfg
  inputs : Option (Obj RVal)

/-- The `config: (schema : ...)` wrapper of a blueprint or override declaration. -/
structure ConfigDecl (Sch : Type) where
  schema : Obj Sch

/-- The options record accepted by `createExtensionBlueprint`. -/
structure CreateExtensionBlueprintOptions
    (Param Inp Sch Out Val Node Apis Cfg RVal Err DRef : Type) where
  kind : String
  «namespace» : Option String
  attachTo : AttachTo
  disabled : Option Bool
  inputs : Option (Obj Inp)
  output : List Out
  name : Option String
  config : Option (ConfigDecl Sch)
  factory : Option Param → FactoryContext Node Apis Cfg RVal → Except Err (List Val)
  dataRefs : Option (Obj DRef)

/-- The declaration record passed to the external extension constructor
`createExtension`: identification fields, input slots, output data refs, the
config schema and the wrapped factory. -/
structure ExtensionDecl (Inp Sch Out Val Node Apis Cfg RVal Err : Type) where
  kind : String
  «namespace» : Option String
  name : Option String
  attachTo : AttachTo
  disabled : Option Bool
  inputs : Option (Obj Inp)
  output : List Out
  config : Option (ConfigDecl Sch)
  factory : FactoryContext Node Apis Cfg RVal → Except Err (List Val)

/-- Modelled from the spec: the external extension constructor `createExtension`
is not part of the provided sources and is treated as a black box producing an
opaque Extension Definition from the declaration it receives. The embedding
models the Extension Definition as the captured declaration itself, so that the
declaration passed to the constructor is observable. -/
def createExtension {Inp Sch Out Val Node Apis Cfg RVal Err : Type}
    (d : ExtensionDecl Inp Sch Out Val Node Apis Cfg RVal Err) :
    ExtensionDecl Inp Sch Out Val Node Apis Cfg RVal Err := d

/-- The extension data container: the external constructor
`createExtensionDataContainer` pairs an eagerly produced list of output values
with the declared output data-ref list it is scoped to. -/
structure ExtensionDataContainer (Val Out : Type) where
  values : List Val
  outputs : List Out
deriving DecidableEq

/-- Modelled from the spec: the external data-container constructor
`createExtensionDataContainer` (not part of the provided sources) wraps a raw
iterable of output values together with a declared output-ref list into a
container scoped to that output set. -/
def createExtensionDataContainer {Val Out : Type}
    (values : List Val) (outputs : List Out) : ExtensionDataContainer Val Out :=
  { values := values, outputs := outputs }

/-- Modelled from the spec: the external input-override resolver
`resolveInputOverrides` (not part of the provided sources). Given the declared
input slots, the ambient resolved inputs, and optional per-call overrides, it
produces the effective resolved input mapping passed to the base factory: with
no overrides the ambient resolved inputs are returned unchanged, and otherwise
the override entries are merged over the ambient ones, the override value
prevailing key by key. -/
def resolveInputOverrides {Inp RVal : Type} (_declared : Option (Obj Inp))
    (ambient : Obj RVal) (overrides : Option (Obj RVal)) : Obj RVal :=
  match overrides with
  | none => ambient
  | some o => Obj.spread ambient o

/-- The arguments of `ExtensionBlueprint.make`. -/
structure MakeArgs (Param : Type) where
  «namespace» : Option String
  name : Option String
  attachTo : Option AttachTo
  disabled : Option Bool
  params : Param

/-- The arguments of `ExtensionBlueprint.makeWithOverrides`: identification
overrides, additional input slots, a replacement output list, additional config
schema entries, and the override factory, which receives the bound
original-factory callable and the runtime context. -/
structure MakeWithOverridesArgs
    (Param Inp Sch Out Val Node Apis Cfg RVal Err : Type) where
  «namespace» : Option String
  name : Option String
  attachTo : Option AttachTo
  disabled : Option Bool
  inputs : Option (Obj Inp)
  output : Option (List Out)
  config : Option (ConfigDecl Sch)
  factory :
    (Option Param → Option (InnerContext Cfg RVal) →
      Except Err (ExtensionDataContainer Val Out)) →
    FactoryContext Node Apis Cfg RVal → Except Err (List Val)

/-- The bound original-factory callable built inside `makeWithOverrides`'s
factory: it invokes the base blueprint's factory with the given params and with
the ambient context overlaid by the inner call's config and input overrides,
and wraps the emitted values in a data container scoped to the base blueprint's
own declared output list. -/
def originalFactory {Param Inp Sch Out Val Node Apis Cfg RVal Err DRef : Type}
    (options : CreateExtensionBlueprintOptions Param Inp Sch Out Val Node Apis Cfg RVal Err DRef)
    (ctx : FactoryContext Node Apis Cfg RVal)
    (innerParams : Option Param) (innerContext : Option (InnerContext Cfg RVal)) :
    Except Err (ExtensionDataContainer Val Out) :=
  (options.factory innerParams
    { node := ctx.node
      apis := ctx.apis
      config := nullishD (innerContext.bind InnerContext.config) ctx.config
      inputs := resolveInputOverrides options.inputs ctx.inputs
        (innerContext.bind InnerContext.inputs) }).map
    (fun values => createExtensionDataContainer values options.output)

/-- The blueprint object returned by `createExtensionBlueprint`: the data refs
and the two instantiation operations. -/
structure ExtensionBlueprint
    (Param Inp Sch Out Val Node Apis Cfg RVal Err DRef : Type) where
  dataRefs : Option (Obj DRef)
  make : MakeArgs Param → ExtensionDecl Inp Sch Out Val Node Apis Cfg RVal Err
  makeWithOverrides :
    MakeWithOverridesArgs Param Inp Sch Out Val Node Apis Cfg RVal Err →
    ExtensionDecl Inp Sch Out Val Node Apis Cfg RVal Err

/-- The embedding of `createExtensionBlueprint`: from the blueprint options it
builds the blueprint object whose `make` and `makeWithOverrides` assemble a
declaration and pass it to `createExtension`, mirroring the source line for
line (`??` as `nullish`/`nullishD`, object spread as `Obj.spread` over
possibly-`undefined` operands, the `config` ternary as a `match`). -/
def createExtensionBlueprint {Param Inp Sch Out Val Node Apis Cfg RVal Err DRef : Type}
    (options : CreateExtensionBlueprintOptions Param Inp Sch Out Val Node Apis Cfg RVal Err DRef) :
    ExtensionBlueprint Param Inp Sch Out Val Node Apis Cfg RVal Err DRef :=
  { dataRefs := options.dataRefs
    make := fun args =>
      createExtension
        { kind := options.kind
          «namespace» := nullish args.«namespace» options.«namespace»
          name := nullish args.name options.name
          attachTo := nullishD args.attachTo options.attachTo
          disabled := nullish args.disabled options.disabled
          inputs := options.inputs
          output := options.output
          config := options.config
          factory := fun ctx => options.factory (some args.params) ctx }
    makeWithOverrides := fun args =>
      createExtension
        { kind := options.kind
          «namespace» := nullish args.«namespace» options.«namespace»
          name := nullish args.name options.name
          attachTo := nullishD args.attachTo options.attachTo
          disabled := nullish args.disabled options.disabled
          inputs := some (Obj.spread (Obj.orEmpty args.inputs) (Obj.orEmpty options.inputs))
          output := nullishD args.output options.output
          config :=
            match options.config, args.config with
            | none, none => none
            | oc, ac =>
                some { schema := Obj.spread (Obj.orEmpty (oc.map ConfigDecl.schema))
                                   (Obj.orEmpty (ac.map ConfigDecl.schema)) }
          factory := fun ctx => args.factory (originalFactory options ctx) ctx } }

/-!
Concrete instances used by the witness and counterexample theorems. All type
parameters are instantiated with small decidable types: params, input slots,
schema entries, values, resolved inputs and config are `Nat`, output refs are
`String`, errors are `String`, and node/apis are `Unit`.
-/

/-- A concrete options record shorthand. -/
abbrev COpts := CreateExtensionBlueprintOptions Nat Nat Nat String Nat Unit Unit Nat Nat String Nat

/-- A concrete override-args record shorthand. -/
abbrev CMwoArgs := MakeWithOverridesArgs Nat Nat Nat String Nat Unit Unit Nat Nat String

/-- A concrete factory-context shorthand. -/
abbrev CCtx := FactoryContext Unit Unit Nat Nat

/-- Encodes the params argument a factory received: 0 for `undefined`,
`n + 1` for the actual value `n`. -/
def paramCode : Option Nat → Nat
  | none => 0
  | some n => n + 1

/-- Concrete declared input slots of the sample blueprint. -/
def cBaseInputs : Obj Nat := Obj.ofList [("base-slot", 1), ("shared", 2)]

/-- Concrete additional input slots supplied by an override. -/
def cExtraInputs : Obj Nat := Obj.ofList [("extra-slot", 3), ("shared", 4)]

/-- Concrete config schema of the sample blueprint. -/
def cBaseSchema : Obj Nat := Obj.ofList [("color", 10), ("size", 11)]

/-- Concrete override config schema, colliding with the base on `color`. -/
def cOverrideSchema : Obj Nat := Obj.ofList [("color", 20), ("weight", 21)]

/-- The sample blueprint options: its factory records the params it received. -/
def cOpts : COpts :=
  { kind := "widget"
    «namespace» := some "bp-ns"
    attachTo := { id := "root", input := "default" }
    disabled := some false
    inputs := some cBaseInputs
    output := ["base-out"]
    name := some "bp-name"
    config := some { schema := cBaseSchema }
    factory := fun p _ctx => Except.ok [paramCode p]
    dataRefs := none }

/-- A sample ambient factory context with resolved input `x`. -/
def cCtx : CCtx :=
  { node := (), apis := (), config := 100, inputs := Obj.ofList [("x", 10), ("base-slot", 5)] }

/-- Sample `make` arguments: namespace and disabled supplied, name and
attachment omitted, params 7. -/
def cMakeArgs : MakeArgs Nat :=
  { «namespace» := some "arg-ns", name := none, attachTo := none
    disabled := some true, params := 7 }

/-- Sample override arguments: additional inputs, a replacement output list and
an override config schema; the override factory invokes the bound original
factory with no params and yields its contents. -/
def cArgsMwo : CMwoArgs :=
  { «namespace» := none, name := none
    attachTo := some { id := "page", input := "content" }, disabled := none
    inputs := some cExtraInputs
    output := some ["new-out"]
    config := some { schema := cOverrideSchema }
    factory := fun orig _ctx => (orig none none).map ExtensionDataContainer.values }

/-- Override arguments with no additional inputs, outputs or config, whose
factory invokes the bound original factory with no explicit params and yields
its contents. -/
def cArgsNoParams : CMwoArgs :=
  { «namespace» := none, name := none, attachTo := none, disabled := none
    inputs := none, output := none, config := none
    factory := fun orig _ctx => (orig none none).map ExtensionDataContainer.values }

/-- Override arguments with no additional inputs, outputs or config, whose
factory invokes the bound original factory with params 7 and yields its
contents. -/
def cArgsSameParams : CMwoArgs :=
  { «namespace» := none, name := none, attachTo := none, disabled := none
    inputs := none, output := none, config := none
    factory := fun orig _ctx => (orig (some 7) none).map ExtensionDataContainer.values }

/-- Concrete inner input overrides, colliding with the ambient inputs on `x`. -/
def cInnerOv : Obj Nat := Obj.ofList [("x", 99)]

/-- A blueprint whose factory always throws. -/
def cOptsErr : COpts :=
  { kind := "widget"
    «namespace» := none
    attachTo := { id := "root", input := "default" }
    disabled := none
    inputs := none
    output := []
    name := none
    config := none
    factory := fun _p _ctx => Except.error "boom"
    dataRefs := none }

/-- Override arguments whose override factory itself throws. -/
def cArgsErr : CMwoArgs :=
  { «namespace» := none, name := none, attachTo := none, disabled := none
    inputs := none, output := none, config := none
    factory := fun _orig _ctx => Except.error "boom2" }

/-- C1: for every blueprint `B` and every call `B.make(A)`, the declaration
passed to the external extension constructor carries kind equal to `B`'s
declared kind, and its namespace, name, attachment target and disabled flag
equal `A`'s values when `A` supplies them and `B`'s own declared values when
`A` omits them. -/
theorem make_declaration_defaults
    {Param Inp Sch Out Val Node Apis Cfg RVal Err DRef : Type}
    (options : CreateExtensionBlueprintOptions Param Inp Sch Out Val Node Apis Cfg RVal Err DRef)
    (args : MakeArgs Param) :
    ((createExtensionBlueprint options).make args).kind = options.kind
    ∧ (args.«namespace» = none →
        ((createExtensionBlueprint options).make args).«namespace» = options.«namespace»)
    ∧ (∀ v, args.«namespace» = some v →
        ((createExtensionBlueprint options).make args).«namespace» = some v)
    ∧ (args.name = none →
        ((createExtensionBlueprint options).make args).name = options.name)
    ∧ (∀ v, args.name = some v →
        ((createExtensionBlueprint options).make args).name = some v)
    ∧ (args.attachTo = none →
        ((createExtensionBlueprint options).make args).attachTo = options.attachTo)
    ∧ (∀ v, args.attachTo = some v →
        ((createExtensionBlueprint options).make args).attachTo = v)
    ∧ (args.disabled = none →
        ((createExtensionBlueprint options).make args).disabled = options.disabled)
    ∧ (∀ v, args.disabled = some v →
        ((createExtensionBlueprint options).make args).disabled = some v) := by
  refine ⟨rfl, ?_, ?_, ?_, ?_, ?_, ?_, ?_, ?_⟩ <;>
    first
      | (intro h; simp [createExtensionBlueprint, createExtension, nullish, nullishD, h])
      | (intro v h; simp [createExtensionBlueprint, createExtension, nullish, nullishD, h])

/-- Witness for C1 at the sample blueprint and `make` arguments: the kind is
the blueprint's, the supplied namespace and disabled flag win, the omitted name
and attachment fall back to the blueprint's declared values. -/
theorem make_declaration_defaults_witness :
    ((createExtensionBlueprint cOpts).make cMakeArgs).kind = "widget"
    ∧ ((createExtensionBlueprint cOpts).make cMakeArgs).«namespace» = some "arg-ns"
    ∧ ((createExtensionBlueprint cOpts).make cMakeArgs).name = some "bp-name"
    ∧ ((createExtensionBlueprint cOpts).make cMakeArgs).attachTo = { id := "root", input := "default" }
    ∧ ((createExtensionBlueprint cOpts).make cMakeArgs).disabled = some true := by
  have h := make_declaration_defaults cOpts cMakeArgs
  exact ⟨h.1, h.2.2.1 "arg-ns" rfl, h.2.2.2.1 rfl, h.2.2.2.2.2.1 rfl,
    h.2.2.2.2.2.2.2.2 true rfl⟩

/-- C8: for every blueprint and every `make` or `makeWithOverrides` call with
any arguments, the kind of the declaration passed to the external extension
constructor equals the kind given at blueprint construction time; no
per-instance argument can change it. -/
theorem blueprint_kind_immutable
    {Param Inp Sch Out Val Node Apis Cfg RVal Err DRef : Type}
    (options : CreateExtensionBlueprintOptions Param Inp Sch Out Val Node Apis Cfg RVal Err DRef)
    (margs : MakeArgs Param)
    (oargs : MakeWithOverridesArgs Param Inp Sch Out Val Node Apis Cfg RVal Err) :
    ((createExtensionBlueprint options).make margs).kind = options.kind
    ∧ ((createExtensionBlueprint options).makeWithOverrides oargs).kind = options.kind :=
  ⟨rfl, rfl⟩

/-- C2: for every blueprint and every `makeWithOverrides` call, the input-slot
mapping passed to the external extension constructor is the union of the
blueprint's declared inputs and the override args' additional inputs: an input
name is present in the produced mapping exactly when it is present in either
side, so no key from either side is lost. -/
theorem makeWithOverrides_inputs_union
    {Param Inp Sch Out Val Node Apis Cfg RVal Err DRef : Type}
    (options : CreateExtensionBlueprintOptions Param Inp Sch Out Val Node Apis Cfg RVal Err DRef)
    (args : MakeWithOverridesArgs Param Inp Sch Out Val Node Apis Cfg RVal Err)
    (inputName : String) :
    ∃ m, ((createExtensionBlueprint options).makeWithOverrides args).inputs = some m
      ∧ ((Obj.get m inputName).isSome = true ↔
          ((Obj.get (Obj.orEmpty args.inputs) inputName).isSome = true
            ∨ (Obj.get (Obj.orEmpty options.inputs) inputName).isSome = true)) := by
  refine ⟨Obj.spread (Obj.orEmpty args.inputs) (Obj.orEmpty options.inputs), rfl, ?_⟩
  unfold Obj.spread Obj.get
  cases ho : Obj.orEmpty options.inputs inputName <;>
    cases ha : Obj.orEmpty args.inputs inputName <;> simp [ho, ha]

/-- C10: in `makeWithOverrides`, whenever the blueprint's declared inputs carry
an entry for a name, the produced mapping carries the base blueprint's entry
for that name, even when the override args' additional inputs also carry that
name — the opposite precedence from config-schema merging. -/
theorem makeWithOverrides_inputs_base_precedence
    {Param Inp Sch Out Val Node Apis Cfg RVal Err DRef : Type}
    (options : CreateExtensionBlueprintOptions Param Inp Sch Out Val Node Apis Cfg RVal Err DRef)
    (args : MakeWithOverridesArgs Param Inp Sch Out Val Node Apis Cfg RVal Err)
    (inputName : String) (e : Inp)
    (hb : Obj.get (Obj.orEmpty options.inputs) inputName = some e) :
    ∃ m, ((createExtensionBlueprint options).makeWithOverrides args).inputs = some m
      ∧ Obj.get m inputName = some e := by
  refine ⟨Obj.spread (Obj.orEmpty args.inputs) (Obj.orEmpty options.inputs), rfl, ?_⟩
  unfold Obj.spread Obj.get
  unfold Obj.get at hb
  simp [hb]

/-- Witness for C10: the sample blueprint declares `shared` (entry 2) and the
override also supplies `shared` (entry 4); the produced mapping carries the
base blueprint's entry 2. -/
theorem makeWithOverrides_inputs_base_precedence_witness :
    Obj.get (Obj.orEmpty cOpts.inputs) "shared" = some 2
    ∧ ∃ m, ((createExtensionBlueprint cOpts).makeWithOverrides cArgsMwo).inputs = some m
        ∧ Obj.get m "shared" = some 2 :=
  ⟨rfl, makeWithOverrides_inputs_base_precedence cOpts cArgsMwo "shared" 2 rfl⟩

/-- C3: for every blueprint with a config schema and every `makeWithOverrides`
call supplying an override config schema, the config schema passed to the
external extension constructor is the shallow union of the two: at every key
the result carries the override's entry when the override has one and the
base's entry otherwise, so on a key present in both the override's entry wins. -/
theorem makeWithOverrides_config_override_wins
    {Param Inp Sch Out Val Node Apis Cfg RVal Err DRef : Type}
    (options : CreateExtensionBlueprintOptions Param Inp Sch Out Val Node Apis Cfg RVal Err DRef)
    (args : MakeWithOverridesArgs Param Inp Sch Out Val Node Apis Cfg RVal Err)
    (sc sc' : ConfigDecl Sch) (k : String)
    (hb : options.config = some sc) (ho : args.config = some sc') :
    ∃ c, ((createExtensionBlueprint options).makeWithOverrides args).config = some c
      ∧ Obj.get c.schema k =
          (match Obj.get sc'.schema k with
            | some e => some e
            | none => Obj.get sc.schema k) := by
  simp only [createExtensionBlueprint, createExtension, hb, ho]
  exact ⟨_, rfl, rfl⟩

/-- Witness for C3: the sample base schema and override schema collide on
`color` (entries 10 and 20); the produced schema carries the override's 20 at
`color`, and retains the base-only key `size`. -/
theorem makeWithOverrides_config_override_wins_witness :
    (∃ c, ((createExtensionBlueprint cOpts).makeWithOverrides cArgsMwo).config = some c
      ∧ Obj.get c.schema "color" = some 20)
    ∧ (∃ c, ((createExtensionBlueprint cOpts).makeWithOverrides cArgsMwo).config = some c
      ∧ Obj.get c.schema "size" = some 11) := by
  constructor
  · obtain ⟨c, hc, hk⟩ := makeWithOverrides_config_override_wins cOpts cArgsMwo
      { schema := cBaseSchema } { schema := cOverrideSchema } "color" rfl rfl
    exact ⟨c, hc, by rw [hk]; rfl⟩
  · obtain ⟨c, hc, hk⟩ := makeWithOverrides_config_override_wins cOpts cArgsMwo
      { schema := cBaseSchema } { schema := cOverrideSchema } "size" rfl rfl
    exact ⟨c, hc, by rw [hk]; rfl⟩

/-- C4: in `makeWithOverrides`, a supplied override output list replaces the
blueprint's declared outputs in the declaration passed to the external
extension constructor (otherwise the blueprint's outputs are passed), while the
bound original-factory callable handed to the override factory always wraps the
base factory's emitted values in a data container scoped to the base
blueprint's own declared output list, never the override's. -/
theorem makeWithOverrides_output_replacement_container
    {Param Inp Sch Out Val Node Apis Cfg RVal Err DRef : Type}
    (options : CreateExtensionBlueprintOptions Param Inp Sch Out Val Node Apis Cfg RVal Err DRef)
    (args : MakeWithOverridesArgs Param Inp Sch Out Val Node Apis Cfg RVal Err)
    (ctx : FactoryContext Node Apis Cfg RVal) :
    (args.output = none →
      ((createExtensionBlueprint options).makeWithOverrides args).output = options.output)
    ∧ (∀ l, args.output = some l →
      ((createExtensionBlueprint options).makeWithOverrides args).output = l)
    ∧ (((createExtensionBlueprint options).makeWithOverrides args).factory ctx
        = args.factory (originalFactory options ctx) ctx)
    ∧ (∀ p ic c, originalFactory options ctx p ic = Except.ok c →
        c.outputs = options.output) := by
  refine ⟨?_, ?_, rfl, ?_⟩
  · intro h
    simp [createExtensionBlueprint, createExtension, nullishD, h]
  · intro l h
    simp [createExtensionBlueprint, createExtension, nullishD, h]
  · intro p ic c h
    unfold originalFactory at h
    cases hf : options.factory p
        { node := ctx.node
          apis := ctx.apis
          config := nullishD (ic.bind InnerContext.config) ctx.config
          inputs := resolveInputOverrides options.inputs ctx.inputs
            (ic.bind InnerContext.inputs) } with
    | error e => rw [hf] at h; exact absurd h (by simp [Except.map])
    | ok vs =>
        rw [hf] at h
        simp only [Except.map] at h
        cases h
        rfl

/-- Witness for C4 at the sample blueprint: the override's output list
`new-out` replaces the base's in the declaration, yet the container produced by
the bound original factory for params 3 is scoped to the base output list
`base-out`. -/
theorem makeWithOverrides_output_replacement_container_witness :
    ((createExtensionBlueprint cOpts).makeWithOverrides cArgsMwo).output = ["new-out"]
    ∧ (createExtensionDataContainer [paramCode (some 3)] ["base-out"]).outputs = cOpts.output := by
  have h := makeWithOverrides_output_replacement_container cOpts cArgsMwo cCtx
  exact ⟨h.2.1 ["new-out"] rfl,
    h.2.2.2 (some 3) none (createExtensionDataContainer [paramCode (some 3)] ["base-out"]) rfl⟩

/-- C5 counterexample: the claim says invoking the bound original-factory
callable with no explicit params causes the base factory to be invoked with
params originally supplied in the enclosing call chain rather than with
undefined params. At the sample blueprint, whose factory records the params it
received (`paramCode none = 0`), the override factory of `cArgsNoParams`
invokes the bound original factory with no params and the run shows the base
factory received `undefined` — a value no supplied params could produce. -/
theorem makeWithOverrides_no_params_undefined_cex :
    ((createExtensionBlueprint cOpts).makeWithOverrides cArgsNoParams).factory cCtx
      = Except.ok [paramCode none]
    ∧ (Except.ok [paramCode none] : Except String (List Nat)) ≠ Except.ok [paramCode (some 7)] := by
  constructor
  · rfl
  · intro h
    simp [paramCode] at h

/-- C5 amended: the bound original-factory callable passes its params argument
through to the base blueprint's factory unchanged; `makeWithOverrides` supplies
no enclosing params and no defaulting occurs, so invoking it with no explicit
params invokes the base factory with undefined params. -/
theorem originalFactory_params_passthrough
    {Param Inp Sch Out Val Node Apis Cfg RVal Err DRef : Type}
    (options : CreateExtensionBlueprintOptions Param Inp Sch Out Val Node Apis Cfg RVal Err DRef)
    (ctx : FactoryContext Node Apis Cfg RVal)
    (innerParams : Option Param) (innerContext : Option (InnerContext Cfg RVal)) :
    ∃ ctx2, originalFactory options ctx innerParams innerContext
      = (options.factory innerParams ctx2).map
          (fun values => createExtensionDataContainer values options.output) :=
  ⟨_, rfl⟩

/-- C6: when the bound original-factory callable is invoked with an inner
context supplying config and input overrides, the base factory receives the
inner call's config value in place of the ambient resolved config, and receives
the inputs produced by the override-resolution helper applied to the declared
inputs, the ambient resolved inputs and the inner overrides, in which an inner
entry prevails over the ambient one at every key the overrides carry. -/
theorem originalFactory_inner_context_precedence
    {Param Inp Sch Out Val Node Apis Cfg RVal Err DRef : Type}
    (options : CreateExtensionBlueprintOptions Param Inp Sch Out Val Node Apis Cfg RVal Err DRef)
    (ctx : FactoryContext Node Apis Cfg RVal)
    (p : Option Param) (icc : Cfg) (ov : Obj RVal) (k : String) :
    (originalFactory options ctx p (some { config := some icc, inputs := some ov })
      = (options.factory p
          { node := ctx.node
            apis := ctx.apis
            config := icc
            inputs := resolveInputOverrides options.inputs ctx.inputs (some ov) }).map
          (fun values => createExtensionDataContainer values options.output))
    ∧ ((Obj.get ov k).isSome = true →
        Obj.get (resolveInputOverrides options.inputs ctx.inputs (some ov)) k = Obj.get ov k) := by
  refine ⟨rfl, ?_⟩
  intro h
  unfold resolveInputOverrides Obj.spread Obj.get
  unfold Obj.get at h
  cases hk : ov k with
  | none => rw [hk] at h; simp at h
  | some v => simp [hk]

/-- Witness for C6 at the sample blueprint: with ambient input `x` resolved to
10 and the inner overrides carrying `x` with 99, the base factory receives
config 42 from the inner context and inputs in which `x` is 99. -/
theorem originalFactory_inner_context_precedence_witness :
    (originalFactory cOpts cCtx (some 1) (some { config := some 42, inputs := some cInnerOv })
      = (cOpts.factory (some 1)
          { node := ()
            apis := ()
            config := 42
            inputs := resolveInputOverrides cOpts.inputs cCtx.inputs (some cInnerOv) }).map
          (fun values => createExtensionDataContainer values cOpts.output))
    ∧ Obj.get (resolveInputOverrides cOpts.inputs cCtx.inputs (some cInnerOv)) "x" = some 99 := by
  have h := originalFactory_inner_context_precedence cOpts cCtx (some 1) 42 cInnerOv "x"
  refine ⟨h.1, ?_⟩
  rw [h.2 rfl]
  rfl

/-- C7 counterexample: the claim says an override factory that merely invokes
the bound original factory and yields its result reproduces the direct `make`
output for the same params. With the sample blueprint, whose factory records
the params it received, `make` with params 7 emits `paramCode (some 7) = 8`
while the trivial override factory of `cArgsNoParams` — the spec's
`factory: (orig) => orig()` — emits `paramCode none = 0`, because the bound
original factory invoked without params hands the base factory undefined
params. -/
theorem makeWithOverrides_trivial_override_differs_cex :
    ((createExtensionBlueprint cOpts).make cMakeArgs).factory cCtx
      ≠ ((createExtensionBlueprint cOpts).makeWithOverrides cArgsNoParams).factory cCtx := by
  intro h
  have h1 : ((createExtensionBlueprint cOpts).make cMakeArgs).factory cCtx
      = Except.ok [paramCode (some 7)] := rfl
  have h2 : ((createExtensionBlueprint cOpts).makeWithOverrides cArgsNoParams).factory cCtx
      = Except.ok [paramCode none] := rfl
  rw [h1, h2] at h
  simp [paramCode] at h

/-- C7 amended: a `makeWithOverrides` call whose override factory invokes the
bound original factory with the same params as the `make` call and yields its
contents produces a declaration whose factory emits output identical to the
direct `make` call, in every runtime context. -/
theorem makeWithOverrides_orig_same_params_equivalent
    {Param Inp Sch Out Val Node Apis Cfg RVal Err DRef : Type}
    (options : CreateExtensionBlueprintOptions Param Inp Sch Out Val Node Apis Cfg RVal Err DRef)
    (margs : MakeArgs Param)
    (oargs : MakeWithOverridesArgs Param Inp Sch Out Val Node Apis Cfg RVal Err)
    (ctx : FactoryContext Node Apis Cfg RVal)
    (hf : oargs.factory = fun orig _ctx =>
      (orig (some margs.params) none).map ExtensionDataContainer.values) :
    ((createExtensionBlueprint options).makeWithOverrides oargs).factory ctx
      = ((createExtensionBlueprint options).make margs).factory ctx := by
  show oargs.factory (originalFactory options ctx) ctx
      = options.factory (some margs.params) ctx
  rw [hf]
  show (((options.factory (some margs.params) ctx).map
      (fun values => createExtensionDataContainer values options.output)).map
      ExtensionDataContainer.values)
    = options.factory (some margs.params) ctx
  cases hx : options.factory (some margs.params) ctx with
  | error e => rfl
  | ok vs => rfl

/-- Witness for the amended C7: with the sample blueprint, the override factory
that re-invokes the original factory with params 7 emits exactly what the
direct `make` call with params 7 emits. -/
theorem makeWithOverrides_orig_same_params_equivalent_witness :
    ((createExtensionBlueprint cOpts).makeWithOverrides cArgsSameParams).factory cCtx
      = ((createExtensionBlueprint cOpts).make cMakeArgs).factory cCtx :=
  makeWithOverrides_orig_same_params_equivalent cOpts cMakeArgs cArgsSameParams cCtx rfl

/-- C9: neither `make` nor `makeWithOverrides` catches, wraps or transforms
errors. The `make` wrapper returns the base factory's failure unchanged, the
`makeWithOverrides` wrapper returns the override factory's failure unchanged,
and the bound original-factory callable returns the base factory's failure
unchanged; the declaration itself is handed to the external constructor as
assembled, with no error handling in this layer. -/
theorem blueprint_no_error_handling
    {Param Inp Sch Out Val Node Apis Cfg RVal Err DRef : Type}
    (options : CreateExtensionBlueprintOptions Param Inp Sch Out Val Node Apis Cfg RVal Err DRef)
    (margs : MakeArgs Param)
    (oargs : MakeWithOverridesArgs Param Inp Sch Out Val Node Apis Cfg RVal Err)
    (ctx : FactoryContext Node Apis Cfg RVal) (e : Err) :
    (options.factory (some margs.params) ctx = Except.error e →
      ((createExtensionBlueprint options).make margs).factory ctx = Except.error e)
    ∧ (oargs.factory (originalFactory options ctx) ctx = Except.error e →
      ((createExtensionBlueprint options).makeWithOverrides oargs).factory ctx = Except.error e)
    ∧ (∀ p ic, (∀ ctx2, options.factory p ctx2 = Except.error e) →
        originalFactory options ctx p ic = Except.error e) := by
  refine ⟨fun h => h, fun h => h, ?_⟩
  intro p ic h
  unfold originalFactory
  rw [h _]
  rfl

/-- Witness for C9: the always-throwing blueprint's failure surfaces unchanged
from `make`'s wrapped factory and from the bound original factory, and a
throwing override factory's failure surfaces unchanged from
`makeWithOverrides`'s wrapped factory. -/
theorem blueprint_no_error_handling_witness :
    ((createExtensionBlueprint cOptsErr).make cMakeArgs).factory cCtx = Except.error "boom"
    ∧ ((createExtensionBlueprint cOptsErr).makeWithOverrides cArgsErr).factory cCtx
        = Except.error "boom2"
    ∧ originalFactory cOptsErr cCtx none none = Except.error "boom" := by
  have h1 := blueprint_no_error_handling cOptsErr cMakeArgs cArgsErr cCtx "boom"
  have h2 := blueprint_no_error_handling cOptsErr cMakeArgs cArgsErr cCtx "boom2"
  exact ⟨h1.1 rfl, h2.2.1 rfl, h1.2.2 none none (fun _ => rfl)⟩
